import Mathlib

/-!
Verification of the discovery core of `opencode-call-response`.

The development shallowly embeds the TypeScript source:

* `src/util/generator.ts` (`mergeGenerators`) — the Fan-In Merger;
* `src/sensor/cache.ts` (`CacheSensor.discover`) — the Deduplicating Cache;
* `src/session/active.ts` (`getSessionStatus`, `getActiveSessions`) — the
  Instance Status Poller;
* `src/session/filter.ts` (`matchesFilter` — the source's `matches`, a
  Lean keyword — and `filterSessions`) — session filtering.

Asynchrony is made explicit: the nondeterministic outcome of each
`Promise.race` is a scheduler choice, and each lazy stream is the finite
list of values it would yield.
-/

/-!
### Fan-In Merger — `mergeGenerators` (src/util/generator.ts)

The TypeScript loop keeps a set `activeIterators`; every iteration it calls
`it.next()` on EVERY active iterator, races the resulting promises, and uses
only the winner: a losing promise's value is discarded, never re-queued.
Consequently each loop iteration consumes one element from every active
iterator while yielding only the winner's element.

Model: slot `i` of a `MergeState` is `some rem` while iterator `i` is still
in `activeIterators` (`rem` = the values it has not yet handed out to a
`next()` call) and `none` once it was removed after reporting `done`.  A
schedule is the list of race winners.  One round with winner `w`
(`mergeStep`):

* every active iterator is advanced one step (`advanceAll` — the `next()`
  calls issued to all of them);
* if `w` still had a value, that value is emitted;
* if `w` was exhausted, `w` is removed from the active set, nothing emitted;
* a winner that is not active cannot occur in the real race; such a choice
  is a no-op here and is ruled out by `validSchedB`.

`mergeRunT` tags each emitted value with the index of the iterator that
produced it, so per-source subsequences can be stated; `mergeGenerators`
is the untagged output.
-/

abbrev MergeState (α : Type) := List (Option (List α))

def advanceAll {α : Type} (state : MergeState α) : MergeState α :=
  state.map (Option.map List.tail)

def mergeStep {α : Type} (state : MergeState α) (w : Nat) : List (Nat × α) × MergeState α :=
  match state[w]? with
  | some (some (x :: _)) => ([(w, x)], advanceAll state)
  | some (some []) => ([], (advanceAll state).set w none)
  | _ => ([], state)

def mergeRunT {α : Type} : MergeState α → List Nat → List (Nat × α)
  | _, [] => []
  | state, w :: rest => (mergeStep state w).1 ++ mergeRunT (mergeStep state w).2 rest

def mergeFinal {α : Type} : MergeState α → List Nat → MergeState α
  | state, [] => state
  | state, w :: rest => mergeFinal (mergeStep state w).2 rest

/-- Iterator `w` is still in `activeIterators`. -/
def isActive {α : Type} (state : MergeState α) (w : Nat) : Bool :=
  match state[w]? with
  | some (some _) => true
  | _ => false

/-- A schedule is valid when every chosen race winner is an iterator that is
still in `activeIterators` at that round (the only winners a real
`Promise.race` over the active set can produce). -/
def validSchedB {α : Type} : MergeState α → List Nat → Bool
  | _, [] => true
  | state, w :: rest => isActive state w && validSchedB (mergeStep state w).2 rest

def mergeGenerators {α : Type} (generators : List (List α)) (sched : List Nat) : List α :=
  (mergeRunT (generators.map some) sched).map Prod.snd

theorem getElem?_advanceAll {α : Type} (state : MergeState α) (i : Nat) :
    (advanceAll state)[i]? = state[i]?.map (Option.map List.tail) := by
  simp [advanceAll]

/-- A slot is dead when its iterator was removed from the active set (or
never existed); `mergeStep` never revives a dead slot. -/
def deadSlot {α : Type} (state : MergeState α) (i : Nat) : Prop :=
  state[i]? = none ∨ state[i]? = some none

theorem mergeStep_dead {α : Type} (state : MergeState α) (w i : Nat)
    (h : deadSlot state i) : deadSlot (mergeStep state w).2 i := by
  have hadv : deadSlot (advanceAll state) i := by
    rcases h with h | h
    · exact Or.inl (by simp [getElem?_advanceAll, h])
    · exact Or.inr (by simp [getElem?_advanceAll, h])
  rcases hw : state[w]? with _ | o
  · simpa [mergeStep, hw] using h
  · rcases o with _ | l
    · simpa [mergeStep, hw] using h
    · rcases l with _ | ⟨x, xs⟩
      · by_cases hiw : i = w
        · subst hiw
          rcases h with h | h <;> rw [h] at hw <;> cases hw
        · have : ((advanceAll state).set w none)[i]? = (advanceAll state)[i]? :=
            List.getElem?_set_ne (fun hh => hiw hh.symm)
          simpa [mergeStep, hw, deadSlot, this] using hadv
      · simpa [mergeStep, hw] using hadv

theorem mergeStep_fst {α : Type} (state : MergeState α) (w : Nat) :
    ∀ p ∈ (mergeStep state w).1, p.1 = w ∧ ∃ l, state[w]? = some (some l) := by
  intro p hp
  rcases hw : state[w]? with _ | o
  · simp [mergeStep, hw] at hp
  · rcases o with _ | l
    · simp [mergeStep, hw] at hp
    · rcases l with _ | ⟨x, xs⟩
      · simp [mergeStep, hw] at hp
      · simp [mergeStep, hw] at hp
        subst hp
        exact ⟨rfl, x :: xs, rfl⟩

/-- Once an iterator's slot is dead, the run never attributes another output
to it. -/
theorem mergeRunT_mem_dead {α : Type} (sched : List Nat) (state : MergeState α) (i : Nat)
    (h : deadSlot state i) : ∀ p ∈ mergeRunT state sched, p.1 ≠ i := by
  induction sched generalizing state with
  | nil =>
    intro p hp
    simp [mergeRunT] at hp
  | cons w rest ih =>
    intro p hp
    rw [mergeRunT] at hp
    rcases List.mem_append.mp hp with h1 | h2
    · obtain ⟨hpw, l, hl⟩ := mergeStep_fst state w p h1
      intro hpi
      rw [hpi] at hpw
      subst hpw
      rcases h with h | h <;> rw [h] at hl <;> cases hl
    · exact ih (mergeStep state w).2 (mergeStep_dead state w i h) p h2

/-- Core order lemma: the outputs attributed to iterator `i` form a sublist
(in order) of whatever remains queued at slot `i`. -/
theorem mergeRunT_source_order {α : Type} (sched : List Nat) (state : MergeState α)
    (i : Nat) (l : List α) (h : state[i]? = some (some l)) :
    List.Sublist (((mergeRunT state sched).filter (fun p => p.1 == i)).map Prod.snd) l := by
  induction sched generalizing state l with
  | nil => simp [mergeRunT]
  | cons w rest ih =>
    have hadv : ∀ m : List α, state[i]? = some (some m) →
        (advanceAll state)[i]? = some (some m.tail) := by
      intro m hm
      simp [getElem?_advanceAll, hm]
    rcases hw : state[w]? with _ | o
    · simpa [mergeRunT, mergeStep, hw] using ih state l h
    · rcases o with _ | ll
      · simpa [mergeRunT, mergeStep, hw] using ih state l h
      · rcases ll with _ | ⟨x, xs⟩
        · -- winner exhausted: removed from the active set, nothing emitted
          by_cases hiw : i = w
          · subst hiw
            rw [h] at hw
            cases hw
            have hlen : i < state.length := by
              by_contra hge
              rw [List.getElem?_eq_none (Nat.le_of_not_lt hge)] at h
              cases h
            have hlen2 : i < (advanceAll state).length := by simpa [advanceAll] using hlen
            have hdead : deadSlot ((advanceAll state).set i none) i :=
              Or.inr (List.getElem?_set_eq_of_lt none hlen2)
            have hnil : (mergeRunT ((advanceAll state).set i none) rest).filter
                (fun p => p.1 == i) = [] := by
              apply List.filter_eq_nil_iff.mpr
              intro p hp
              simpa using mergeRunT_mem_dead rest _ i hdead p hp
            simp [mergeRunT, mergeStep, h, hnil]
          · have hslot : ((advanceAll state).set w none)[i]? = some (some l.tail) := by
              rw [List.getElem?_set_ne (fun hh => hiw hh.symm)]
              exact hadv l h
            exact List.Sublist.trans
              (by simpa [mergeRunT, mergeStep, hw] using ih _ l.tail hslot) l.tail_sublist
        · -- winner emitted a value; every active iterator advanced one step
          by_cases hiw : i = w
          · subst hiw
            rw [h] at hw
            cases hw
            have hslot : (advanceAll state)[i]? = some (some xs) := hadv _ h
            have := ih _ xs hslot
            simpa [mergeRunT, mergeStep, h] using List.Sublist.cons₂ x this
          · have hne : (w == i) = false := by
              simp
              exact fun hh => hiw hh.symm
            exact List.Sublist.trans
              (by simpa [mergeRunT, mergeStep, hw, hne] using ih _ l.tail (hadv l h))
              l.tail_sublist

/-- Claim C9: for every run of the Fan-In Merger and every individual input
source, the subsequence of the merger's output that originates from that
source appears in the same relative order in which that source emitted it,
whatever interleaving (schedule of race winners) occurs across sources. -/
theorem mergeGenerators_per_source_order {α : Type} (gens : List (List α)) (sched : List Nat)
    (i : Nat) (l : List α) (h : gens[i]? = some l) :
    List.Sublist (((mergeRunT (gens.map some) sched).filter (fun p => p.1 == i)).map Prod.snd)
      l := by
  apply mergeRunT_source_order
  simp [h]

theorem mergeGenerators_per_source_order_witness :
    ([[10, 20], [30]] : List (List Nat))[0]? = some [10, 20]
  ∧ List.Sublist (((mergeRunT (([[10, 20], [30]] : List (List Nat)).map some)
      [1, 0, 0, 0]).filter (fun p => p.1 == 0)).map Prod.snd) [10, 20] :=
  ⟨rfl, mergeGenerators_per_source_order [[10, 20], [30]] [1, 0, 0, 0] 0 [10, 20] rfl⟩

/-- Claim C1: the Fan-In Merger is claimed to lose no element, yet the code
discards the value of every `next()` promise that loses the race.  With
sources `[1,2]` and `[3]` and a schedule in which source 0 wins every race
(a real outcome of `Promise.race`), the run is valid, drains every iterator,
and outputs `[1, 2]` — element `3` is lost, so the output is not a
permutation of `[1, 2, 3]`. -/
theorem mergeGenerators_drops_elements :
    validSchedB (([[1, 2], [3]] : List (List Nat)).map some) [0, 0, 0, 1] = true
  ∧ (mergeFinal (([[1, 2], [3]] : List (List Nat)).map some) [0, 0, 0, 1]).all Option.isNone
      = true
  ∧ mergeGenerators ([[1, 2], [3]] : List (List Nat)) [0, 0, 0, 1] = [1, 2]
  ∧ ¬ (mergeGenerators ([[1, 2], [3]] : List (List Nat)) [0, 0, 0, 1]).Perm [1, 2, 3] := by
  refine ⟨by decide, by decide, by decide, fun h => ?_⟩
  have hlen := h.length_eq
  have : mergeGenerators ([[1, 2], [3]] : List (List Nat)) [0, 0, 0, 1] = [1, 2] := by decide
  rw [this] at hlen
  simp at hlen

/-!
### Deduplicating Cache — `CacheSensor.discover` (src/sensor/cache.ts)

`Instance` follows the sensor trait: `port` and `source` required, the rest
optional.  One `discover()` call is modelled as a function of the cache's
`instances` list and of the list of instances the merged live sensors
deliver during the call (`live` — the output of `mergeGenerators` over the
wrapped sensors, taken as a parameter).  The call

1. replays every cached instance, seeding `seen` with their defined pids
   (`seedSeen`; the JS `Set` is modelled as a list queried by membership);
2. walks the merged live stream (`liveLoop`): an instance whose defined pid
   is already in `seen` is skipped; otherwise its pid (if any) is added to
   `seen`, the instance is appended to the cache and emitted.

`discover` returns (output stream, cache state after the call).
-/

inductive SensorSource where
  | mdns
  | proc
  | port
  | lockfile
deriving DecidableEq

structure Instance where
  port : Nat
  hostname : Option String := none
  pid : Option Nat := none
  cwd : Option String := none
  source : SensorSource
deriving DecidableEq

def seedSeen (instances : List Instance) : List Nat :=
  instances.filterMap (fun i => i.pid)

def liveLoop (seen : List Nat) : List Instance → List Instance
  | [] => []
  | inst :: rest =>
    match inst.pid with
    | some p => if p ∈ seen then liveLoop seen rest else inst :: liveLoop (p :: seen) rest
    | none => inst :: liveLoop seen rest

/-- The instances newly emitted (and newly cached) by one `discover()` call. -/
def liveEmits (cached live : List Instance) : List Instance :=
  liveLoop (seedSeen cached) live

/-- One `discover()` call: `(yielded output, cache state afterwards)`. -/
def discover (cached live : List Instance) : List Instance × List Instance :=
  (cached ++ liveEmits cached live, cached ++ liveEmits cached live)

theorem liveLoop_sublist (live : List Instance) :
    ∀ seen : List Nat, List.Sublist (liveLoop seen live) live := by
  induction live with
  | nil => intro seen; simp [liveLoop]
  | cons inst rest ih =>
    intro seen
    rcases hp : inst.pid with _ | p
    · simpa [liveLoop, hp] using List.Sublist.cons₂ inst (ih seen)
    · by_cases hs : p ∈ seen
      · simpa [liveLoop, hp, hs] using List.Sublist.cons inst (ih seen)
      · simpa [liveLoop, hp, hs] using List.Sublist.cons₂ inst (ih (p :: seen))

/-- Claim C4: in every `discover()` call, the output consists of all
previously cached instances first, in their stored (original discovery)
order, followed by the newly merged live instances (a subsequence of the
live stream); the new cache state is that same list. -/
theorem discover_replays_cache_first (cached live : List Instance) :
    (discover cached live).1 = cached ++ liveEmits cached live
  ∧ List.Sublist (liveEmits cached live) live
  ∧ (discover cached live).2 = (discover cached live).1 :=
  ⟨rfl, liveLoop_sublist live (seedSeen cached), rfl⟩

/-- Pid-less instances pass `liveLoop` untouched, whatever `seen` holds. -/
theorem liveLoop_pidless (live : List Instance) :
    ∀ seen : List Nat,
      (liveLoop seen live).filter (fun i => i.pid.isNone)
        = live.filter (fun i => i.pid.isNone) := by
  induction live with
  | nil => intro seen; simp [liveLoop]
  | cons inst rest ih =>
    intro seen
    rcases hp : inst.pid with _ | p
    · simp [liveLoop, hp, List.filter_cons, ih seen]
    · by_cases hs : p ∈ seen
      · simp [liveLoop, hp, hs, List.filter_cons, ih seen]
      · simp [liveLoop, hp, hs, List.filter_cons, ih (p :: seen)]

/-- Claim C6: the cache never drops an instance that lacks a process
identifier: the pid-less instances among one call's new emissions are
exactly the pid-less instances of the merged live stream, in order — none
is deduplicated away, even against a structurally identical one. -/
theorem discover_never_drops_pidless (cached live : List Instance) :
    (liveEmits cached live).filter (fun i => i.pid.isNone)
      = live.filter (fun i => i.pid.isNone) :=
  liveLoop_pidless live (seedSeen cached)

theorem liveLoop_all_seen (live : List Instance) :
    ∀ seen : List Nat, (∀ i ∈ live, ∃ p, i.pid = some p ∧ p ∈ seen) →
      liveLoop seen live = [] := by
  induction live with
  | nil => intro seen _; simp [liveLoop]
  | cons inst rest ih =>
    intro seen h
    obtain ⟨p, hp, hmem⟩ := h inst (List.mem_cons_self inst rest)
    simp [liveLoop, hp, hmem]
    exact ih seen (fun i hi => h i (List.mem_cons_of_mem inst hi))

theorem liveLoop_fresh (live : List Instance) :
    ∀ seen : List Nat, (∀ i ∈ live, ∀ p, i.pid = some p → p ∉ seen) →
      (live.filterMap (fun i => i.pid)).Nodup → liveLoop seen live = live := by
  induction live with
  | nil => intro seen _ _; simp [liveLoop]
  | cons inst rest ih =>
    intro seen hfresh hnd
    rcases hp : inst.pid with _ | p
    · rw [List.filterMap_cons_none hp] at hnd
      simp [liveLoop, hp]
      exact ih seen (fun i hi => hfresh i (List.mem_cons_of_mem inst hi)) hnd
    · have hpn : p ∉ seen := hfresh inst (List.mem_cons_self inst rest) p hp
      rw [List.filterMap_cons_some hp] at hnd
      have hnotin : p ∉ rest.filterMap (fun i => i.pid) := (List.nodup_cons.mp hnd).1
      simp [liveLoop, hp, hpn]
      apply ih (p :: seen)
      · intro i hi q hq hqmem
        rcases List.mem_cons.mp hqmem with rfl | hqseen
        · exact hnotin (List.mem_filterMap.mpr ⟨i, hi, hq⟩)
        · exact hfresh i (List.mem_cons_of_mem inst hi) q hq hqseen
      · exact (List.nodup_cons.mp hnd).2

theorem liveLoop_pids_nodup (live : List Instance) :
    ∀ seen : List Nat,
      ((liveLoop seen live).filterMap (fun i => i.pid)).Nodup
    ∧ ∀ q ∈ (liveLoop seen live).filterMap (fun i => i.pid), q ∉ seen := by
  induction live with
  | nil => intro seen; simp [liveLoop]
  | cons inst rest ih =>
    intro seen
    rcases hp : inst.pid with _ | p
    · have := ih seen
      simpa [liveLoop, hp, List.filterMap_cons_none hp] using this
    · by_cases hs : p ∈ seen
      · simpa [liveLoop, hp, hs] using ih seen
      · obtain ⟨hnd, hnomem⟩ := ih (p :: seen)
        refine ⟨?_, ?_⟩
        · simp [liveLoop, hp, hs]
          exact ⟨fun x hx hxp =>
            hnomem p (List.mem_filterMap.mpr ⟨x, hx, hxp⟩) (List.mem_cons_self p seen), hnd⟩
        · intro q hq
          simp [liveLoop, hp, hs] at hq
          rcases hq with rfl | ⟨a, ha, hq2⟩
          · exact hs
          · exact fun hqs =>
              hnomem q (List.mem_filterMap.mpr ⟨a, ha, hq2⟩) (List.mem_cons_of_mem p hqs)

/-- Claim C5 fails as stated across calls: an instance cached by one call is
replayed by the next, so the same defined pid is emitted twice across two
calls.  Concretely, with a fresh cache, one call discovering a single
instance with pid 5, and a second call discovering nothing, the two calls'
combined emissions carry pid 5 twice. -/
theorem cache_repeats_pid_across_calls :
    ¬ (((discover [] [⟨1, none, some 5, none, SensorSource.proc⟩]).1
        ++ (discover (discover [] [⟨1, none, some 5, none, SensorSource.proc⟩]).2 []).1).filterMap
          (fun i => i.pid)).Nodup := by
  decide

/-- Claim C5 (amended): within any single `discover()` call whose starting
cache has pairwise distinct defined pids (true of every reachable cache
state), no two emitted instances share a defined pid, and the cache state
after the call keeps its defined pids pairwise distinct; a live instance
whose pid is already seen is silently dropped, so no newly merged emission
reuses a pid seeded from the cache.  Across calls, only replays repeat a
pid. -/
theorem cache_no_duplicate_pids_within_call (cached live : List Instance)
    (h : (seedSeen cached).Nodup) :
    ((discover cached live).1.filterMap (fun i => i.pid)).Nodup
  ∧ ((discover cached live).2.filterMap (fun i => i.pid)).Nodup
  ∧ ∀ q ∈ (liveEmits cached live).filterMap (fun i => i.pid), q ∉ seedSeen cached := by
  obtain ⟨hnd, hnomem⟩ := liveLoop_pids_nodup live (seedSeen cached)
  have hout : (discover cached live).1.filterMap (fun i => i.pid)
      = seedSeen cached ++ (liveEmits cached live).filterMap (fun i => i.pid) := by
    simp [discover, seedSeen, liveEmits]
  refine ⟨?_, ?_, fun q hq => hnomem q hq⟩
  · rw [hout]
    exact List.Nodup.append h hnd (fun a ha hb => hnomem a hb ha)
  · rw [show (discover cached live).2 = (discover cached live).1 from rfl, hout]
    exact List.Nodup.append h hnd (fun a ha hb => hnomem a hb ha)

theorem cache_no_duplicate_pids_within_call_witness :
    (seedSeen [⟨1, none, some 5, none, SensorSource.proc⟩]).Nodup
  ∧ (((discover [⟨1, none, some 5, none, SensorSource.proc⟩]
        [⟨2, none, some 5, none, SensorSource.mdns⟩,
         ⟨3, none, some 7, none, SensorSource.proc⟩]).1.filterMap (fun i => i.pid)).Nodup
    ∧ ((discover [⟨1, none, some 5, none, SensorSource.proc⟩]
        [⟨2, none, some 5, none, SensorSource.mdns⟩,
         ⟨3, none, some 7, none, SensorSource.proc⟩]).2.filterMap (fun i => i.pid)).Nodup
    ∧ ∀ q ∈ (liveEmits [⟨1, none, some 5, none, SensorSource.proc⟩]
        [⟨2, none, some 5, none, SensorSource.mdns⟩,
         ⟨3, none, some 7, none, SensorSource.proc⟩]).filterMap (fun i => i.pid),
        q ∉ seedSeen [⟨1, none, some 5, none, SensorSource.proc⟩]) :=
  ⟨by decide, cache_no_duplicate_pids_within_call _ _ (by decide)⟩

/-- Claim C2 fails as stated: an instance without a process identifier is
never deduplicated, so when the sources return it again, the second call's
live phase re-emits it — one new (non-replayed) emission instead of zero. -/
theorem cache_second_call_reemits_pidless :
    liveEmits (discover [] [⟨1, none, none, none, SensorSource.mdns⟩]).2
      [⟨1, none, none, none, SensorSource.mdns⟩] ≠ [] := by
  decide

/-- Claim C2 (amended): consider two sequential `discover()` calls on a
fresh cache, `L1` and `L2` being the instance streams their merged live
phases respectively deliver (the lossy Fan-In Merger of C1 sits between the
sources and the cache, so `L2` need not repeat `L1` even when the sources
answer identically; pid-less instances are re-emitted every call, as the
counterexample shows).  If the defined pids of `L1` are pairwise distinct,
the first call's live phase yields each delivered instance exactly once —
its output is exactly `L1`.  If moreover every instance delivered in the
second call carries a defined pid already delivered in the first call — as
when the sources return the same distinct-pid instances both times and the
first call's merge race loses none of them — then the second call's live
phase yields zero new (non-replayed) instances and the second call's output
is exactly its replay phase, reproducing the first call's output. -/
theorem cache_dedup_idempotent (L1 L2 : List Instance)
    (h1nd : (L1.filterMap (fun i => i.pid)).Nodup)
    (h2def : ∀ i ∈ L2, i.pid ≠ none)
    (h2sub : ∀ p ∈ L2.filterMap (fun i => i.pid), p ∈ L1.filterMap (fun i => i.pid)) :
    (discover [] L1).1 = L1
  ∧ liveEmits (discover [] L1).2 L2 = []
  ∧ (discover (discover [] L1).2 L2).1 = (discover [] L1).1 := by
  have hfirst : liveEmits [] L1 = L1 := by
    apply liveLoop_fresh L1 [] _ h1nd
    intro i _ p _
    simp
  have hcache : (discover [] L1).2 = L1 := by
    simp [discover, hfirst, seedSeen]
  have hsecond : liveEmits L1 L2 = [] := by
    apply liveLoop_all_seen
    intro i hi
    rcases hp : i.pid with _ | p
    · exact absurd hp (h2def i hi)
    · exact ⟨p, rfl, h2sub p (List.mem_filterMap.mpr ⟨i, hi, hp⟩)⟩
  refine ⟨?_, ?_, ?_⟩
  · simp [discover, hfirst]
  · rw [hcache]
    exact hsecond
  · rw [hcache]
    simp [discover, hfirst, hsecond]

theorem cache_dedup_idempotent_witness :
    (([(⟨1, none, some 5, none, SensorSource.proc⟩ : Instance),
       ⟨2, none, some 6, none, SensorSource.mdns⟩].filterMap (fun i => i.pid)).Nodup)
  ∧ (∀ i ∈ [(⟨2, none, some 6, none, SensorSource.mdns⟩ : Instance),
            ⟨1, none, some 5, none, SensorSource.proc⟩], i.pid ≠ none)
  ∧ (∀ p ∈ [(⟨2, none, some 6, none, SensorSource.mdns⟩ : Instance),
            ⟨1, none, some 5, none, SensorSource.proc⟩].filterMap (fun i => i.pid),
       p ∈ [(⟨1, none, some 5, none, SensorSource.proc⟩ : Instance),
            ⟨2, none, some 6, none, SensorSource.mdns⟩].filterMap (fun i => i.pid))
  ∧ ((discover [] [(⟨1, none, some 5, none, SensorSource.proc⟩ : Instance),
       ⟨2, none, some 6, none, SensorSource.mdns⟩]).1
      = [⟨1, none, some 5, none, SensorSource.proc⟩, ⟨2, none, some 6, none, SensorSource.mdns⟩]
  ∧ liveEmits (discover [] [(⟨1, none, some 5, none, SensorSource.proc⟩ : Instance),
       ⟨2, none, some 6, none, SensorSource.mdns⟩]).2
      [⟨2, none, some 6, none, SensorSource.mdns⟩, ⟨1, none, some 5, none, SensorSource.proc⟩] = []
  ∧ (discover (discover [] [(⟨1, none, some 5, none, SensorSource.proc⟩ : Instance),
       ⟨2, none, some 6, none, SensorSource.mdns⟩]).2
      [⟨2, none, some 6, none, SensorSource.mdns⟩, ⟨1, none, some 5, none, SensorSource.proc⟩]).1
      = (discover [] [(⟨1, none, some 5, none, SensorSource.proc⟩ : Instance),
       ⟨2, none, some 6, none, SensorSource.mdns⟩]).1) :=
  ⟨by decide, by decide, by decide,
    cache_dedup_idempotent _ _ (by decide) (by decide) (by decide)⟩

/-!
### Instance Status Poller — `getSessionStatus`, `getActiveSessions`
(src/session/active.ts)

JSON values are modelled by `JValue` (numbers as integers; the status
payload carries only integers).  The JavaScript semantics the code relies
on are made explicit:

* `typeof v === "object" && v !== null` — `isObjectLike` (arrays count as
  objects, `null` is excluded by the second test);
* property access `v.k` — `getProp` (missing property / non-object ↦ `none`,
  JS `undefined`; parsed JSON objects have unique keys, so the first match
  suffices);
* `Object.entries(v)` — `jsEntries` (objects: the field list; arrays and
  strings: index-keyed entries; other primitives: empty);
* falsiness `!v` — `isFalsy` (`null`, `false`, `0`, `""`).

A `fetch` oracle maps a port to the outcome of `GET /api/session/status`:
rejected promise (unreachable), non-ok response, body that fails JSON
parsing (both caught by the code), or a parsed body.  `getSessionStatus`
returns `none` (JS `undefined`) in the three failure cases.
`getActiveSessions` consumes the instance stream in order and flattens the
per-instance status maps; each emitted record copies the payload entry's
`attempt`/`message`/`next` properties verbatim (absent property ↦ `none`).
-/

inductive JValue where
  | null
  | bool (b : Bool)
  | num (n : Int)
  | str (s : String)
  | arr (elems : List JValue)
  | obj (fields : List (String × JValue))

def isObjectLike : JValue → Bool
  | .arr _ => true
  | .obj _ => true
  | _ => false

def getProp : JValue → String → Option JValue
  | .obj fields, k => (fields.find? (fun f => f.1 == k)).map Prod.snd
  | _, _ => none

def jsEntries : JValue → List (String × JValue)
  | .obj fields => fields
  | .arr elems => elems.enum.map (fun e => (toString e.1, e.2))
  | .str s => s.data.enum.map (fun e => (toString e.1, JValue.str (String.singleton e.2)))
  | _ => []

def isFalsy : JValue → Bool
  | .null => true
  | .bool false => true
  | .num 0 => true
  | .str "" => true
  | _ => false

inductive FetchResult where
  | netError
  | notOk
  | badJson
  | ok (body : JValue)

/-- The try/catch around `fetch` + `response.ok` + `response.json()`:
any of the three failure modes yields `undefined`. -/
def getSessionStatus (fetch : Nat → FetchResult) (port : Nat) : Option JValue :=
  match fetch port with
  | .ok body => some body
  | _ => none

def isQueryFailure : FetchResult → Bool
  | .netError => true
  | .notOk => true
  | .badJson => true
  | .ok _ => false

/-- The object yielded per session entry.  `status` is the `type` string of
the entry ("busy" | "retry" | "idle"); the three retry fields hold whatever
JSON value the payload carried (`none` = absent/`undefined`). -/
structure ActiveSession where
  sessionID : String
  port : Nat
  status : String
  retryAttempt : Option JValue
  retryMessage : Option JValue
  retryNext : Option JValue

/-- The body of the inner `for` loop of `getActiveSessions`: skip non-object
entries and entries whose `type` is not one of the three known states;
otherwise yield the record. -/
def processEntry (port : Nat) (entry : String × JValue) : Option ActiveSession :=
  if isObjectLike entry.2 then
    match getProp entry.2 "type" with
    | some (.str t) =>
      if t = "busy" ∨ t = "retry" ∨ t = "idle" then
        some { sessionID := entry.1, port := port, status := t,
               retryAttempt := getProp entry.2 "attempt",
               retryMessage := getProp entry.2 "message",
               retryNext := getProp entry.2 "next" }
      else none
    | _ => none
  else none

def getActiveSessions (fetch : Nat → FetchResult) : List Instance → List ActiveSession
  | [] => []
  | inst :: rest =>
    (match getSessionStatus fetch inst.port with
     | none => []
     | some body =>
       if isFalsy body then []
       else (jsEntries body).filterMap (processEntry inst.port))
    ++ getActiveSessions fetch rest

/-- An entry the poller accepts: an object-like value whose `type` property
is one of the three session states. -/
def wellFormedEntry (v : JValue) : Bool :=
  isObjectLike v &&
    (match getProp v "type" with
     | some (.str t) => t == "busy" || t == "retry" || t == "idle"
     | _ => false)

/-- Claim C8: an instance whose status query fails (unreachable endpoint,
non-success response, or malformed JSON) contributes zero records, raises
no error (the model stays total), and the poller still processes every
subsequent instance unchanged. -/
theorem poller_tolerates_instance_failure (fetch : Nat → FetchResult) (inst : Instance)
    (rest : List Instance) (h : isQueryFailure (fetch inst.port) = true) :
    getActiveSessions fetch (inst :: rest) = getActiveSessions fetch rest := by
  have hnone : getSessionStatus fetch inst.port = none := by
    rcases hf : fetch inst.port with _ | _ | _ | body
    · simp [getSessionStatus, hf]
    · simp [getSessionStatus, hf]
    · simp [getSessionStatus, hf]
    · rw [hf] at h
      cases h
  simp [getActiveSessions, hnone]

theorem poller_tolerates_instance_failure_witness :
    isQueryFailure ((fun p => if p = 1 then FetchResult.netError
        else FetchResult.ok (JValue.obj [("s1", JValue.obj [("type", JValue.str "idle")])])) 1)
      = true
  ∧ getActiveSessions (fun p => if p = 1 then FetchResult.netError
        else FetchResult.ok (JValue.obj [("s1", JValue.obj [("type", JValue.str "idle")])]))
      [⟨1, none, none, none, SensorSource.mdns⟩, ⟨2, none, none, none, SensorSource.mdns⟩]
    = getActiveSessions (fun p => if p = 1 then FetchResult.netError
        else FetchResult.ok (JValue.obj [("s1", JValue.obj [("type", JValue.str "idle")])]))
      [⟨2, none, none, none, SensorSource.mdns⟩]
  ∧ getActiveSessions (fun p => if p = 1 then FetchResult.netError
        else FetchResult.ok (JValue.obj [("s1", JValue.obj [("type", JValue.str "idle")])]))
      [⟨2, none, none, none, SensorSource.mdns⟩]
    = [{ sessionID := "s1", port := 2, status := "idle",
         retryAttempt := none, retryMessage := none, retryNext := none }] :=
  ⟨rfl, poller_tolerates_instance_failure _ _ _ rfl, rfl⟩

/-- Claim C7: the poller omits every status-map entry that is not an object
or whose `type` is not one of `busy`/`retry`/`idle`, and for every
well-formed `retry` entry it propagates the payload's `attempt`, `message`
and `next` properties unchanged into the emitted record. -/
theorem poller_status_filtering (port : Nat) (sid : String) (v : JValue) :
    (wellFormedEntry v = false → processEntry port (sid, v) = none)
  ∧ (isObjectLike v = true → getProp v "type" = some (JValue.str "retry") →
      processEntry port (sid, v) = some
        { sessionID := sid, port := port, status := "retry",
          retryAttempt := getProp v "attempt",
          retryMessage := getProp v "message",
          retryNext := getProp v "next" }) := by
  constructor
  · intro h
    by_cases ho : isObjectLike v = true
    · rcases ht : getProp v "type" with _ | tv
      · simp [processEntry, ho, ht]
      · rcases tv with _ | b | n | t | el | fl
        · simp [processEntry, ho, ht]
        · simp [processEntry, ho, ht]
        · simp [processEntry, ho, ht]
        · have hb : ¬ (t = "busy" ∨ t = "retry" ∨ t = "idle") := by
            intro hb
            rw [wellFormedEntry, ho, ht] at h
            simp at h
            rcases hb with rfl | rfl | rfl <;> simp at h
          simp [processEntry, ho, ht, hb]
        · simp [processEntry, ho, ht]
        · simp [processEntry, ho, ht]
    · simp [processEntry, ho]
  · intro ho ht
    simp [processEntry, ho, ht]

theorem poller_status_filtering_witness :
    wellFormedEntry (JValue.obj [("type", JValue.str "bogus")]) = false
  ∧ processEntry 7 ("s2", JValue.obj [("type", JValue.str "bogus")]) = none
  ∧ isObjectLike (JValue.obj [("type", JValue.str "retry"), ("attempt", JValue.num 2),
      ("message", JValue.str "m"), ("next", JValue.num 99)]) = true
  ∧ getProp (JValue.obj [("type", JValue.str "retry"), ("attempt", JValue.num 2),
      ("message", JValue.str "m"), ("next", JValue.num 99)]) "type"
      = some (JValue.str "retry")
  ∧ processEntry 7 ("s3", JValue.obj [("type", JValue.str "retry"), ("attempt", JValue.num 2),
      ("message", JValue.str "m"), ("next", JValue.num 99)]) = some
        { sessionID := "s3", port := 7, status := "retry",
          retryAttempt := getProp (JValue.obj [("type", JValue.str "retry"),
            ("attempt", JValue.num 2), ("message", JValue.str "m"),
            ("next", JValue.num 99)]) "attempt",
          retryMessage := getProp (JValue.obj [("type", JValue.str "retry"),
            ("attempt", JValue.num 2), ("message", JValue.str "m"),
            ("next", JValue.num 99)]) "message",
          retryNext := getProp (JValue.obj [("type", JValue.str "retry"),
            ("attempt", JValue.num 2), ("message", JValue.str "m"),
            ("next", JValue.num 99)]) "next" } :=
  ⟨rfl, (poller_status_filtering 7 "s2" _).1 rfl, rfl, rfl,
    (poller_status_filtering 7 "s3" _).2 rfl rfl⟩

/-- Claim C3 fails as stated: the code copies `status.attempt` (and
`message`, `next`) into the record for EVERY accepted state, so a payload
whose `idle` entry carries an `attempt` property produces an emitted record
with `state = idle` and `retryAttempt` present. -/
theorem poller_copies_retry_fields_for_idle :
    getActiveSessions
      (fun _ => FetchResult.ok
        (JValue.obj [("s", JValue.obj [("type", JValue.str "idle"), ("attempt", JValue.num 3)])]))
      [⟨1, none, none, none, SensorSource.mdns⟩]
    = [{ sessionID := "s", port := 1, status := "idle",
         retryAttempt := some (JValue.num 3), retryMessage := none, retryNext := none }] := by
  rfl

/-- Claim C3 (amended): every record the poller emits carries
`retryAttempt`/`retryMessage`/`retryNext` copied verbatim from the payload
entry's `attempt`/`message`/`next` properties, whatever its state; the
fields are absent exactly when the payload entry omits them, so they are
confined to `retrying` records only for payloads that confine those
properties to `retry` entries. -/
theorem poller_retry_fields_mirror_payload (port : Nat) (sid : String) (v : JValue)
    (r : ActiveSession) (h : processEntry port (sid, v) = some r) :
    r.retryAttempt = getProp v "attempt"
  ∧ r.retryMessage = getProp v "message"
  ∧ r.retryNext = getProp v "next"
  ∧ r.sessionID = sid ∧ r.port = port := by
  by_cases ho : isObjectLike v = true
  · rcases ht : getProp v "type" with _ | tv
    · simp [processEntry, ho, ht] at h
    · rcases tv with _ | b | n | t | el | fl
      · simp [processEntry, ho, ht] at h
      · simp [processEntry, ho, ht] at h
      · simp [processEntry, ho, ht] at h
      · by_cases hb : t = "busy" ∨ t = "retry" ∨ t = "idle"
        · simp [processEntry, ho, ht, hb] at h
          subst h
          simp
        · simp [processEntry, ho, ht, hb] at h
      · simp [processEntry, ho, ht] at h
      · simp [processEntry, ho, ht] at h
  · simp [processEntry, ho] at h

theorem poller_retry_fields_mirror_payload_witness :
    ({ sessionID := "s", port := 1, status := "retry",
       retryAttempt := some (JValue.num 2), retryMessage := none,
       retryNext := none } : ActiveSession).retryAttempt
      = getProp (JValue.obj [("type", JValue.str "retry"), ("attempt", JValue.num 2)]) "attempt"
  ∧ ({ sessionID := "s", port := 1, status := "retry",
       retryAttempt := some (JValue.num 2), retryMessage := none,
       retryNext := none } : ActiveSession).retryMessage
      = getProp (JValue.obj [("type", JValue.str "retry"), ("attempt", JValue.num 2)]) "message"
  ∧ ({ sessionID := "s", port := 1, status := "retry",
       retryAttempt := some (JValue.num 2), retryMessage := none,
       retryNext := none } : ActiveSession).retryNext
      = getProp (JValue.obj [("type", JValue.str "retry"), ("attempt", JValue.num 2)]) "next"
  ∧ ({ sessionID := "s", port := 1, status := "retry",
       retryAttempt := some (JValue.num 2), retryMessage := none,
       retryNext := none } : ActiveSession).sessionID = "s"
  ∧ ({ sessionID := "s", port := 1, status := "retry",
       retryAttempt := some (JValue.num 2), retryMessage := none,
       retryNext := none } : ActiveSession).port = 1 :=
  poller_retry_fields_mirror_payload 1 "s"
    (JValue.obj [("type", JValue.str "retry"), ("attempt", JValue.num 2)]) _ rfl

/-!
### Session filtering — `matches`, `filterSessions` (src/session/filter.ts)

`Session` is the session shape the filter operates on (all fields but
`sessionID` optional); `SessionFilter` extends a partial `Session` with the
five special keys.  A filter key that is absent from the object is `none`.
`matchesFilter` (the source's `matches`) iterates the present filter keys and rejects on the first failing
check; since every branch can only reject, the outcome is
order-independent, and it is modelled as the conjunction of one check per
present key, in the source's declaration order:

* `busy`/`idle`/`retrying` reject only when the key is present with value
  `true` and the status differs;
* `sessionIDPattern` requires `session.sessionID.includes(pattern)`
  (substring containment);
* `minRetryAttempt` rejects only a session whose `retryAttempt` is defined
  and strictly below the minimum;
* every other present key is compared to the session's field with strict
  equality.

`filterSessions` takes either a predicate function or a filter object and
keeps the sessions that pass.
-/

structure Session where
  sessionID : String
  port : Option Nat := none
  hostname : Option String := none
  pid : Option Nat := none
  cwd : Option String := none
  source : Option SensorSource := none
  status : Option String := none
  retryAttempt : Option Int := none
  retryMessage : Option String := none
  retryNext : Option Int := none
deriving DecidableEq

structure SessionFilter where
  busy : Option Bool := none
  idle : Option Bool := none
  retrying : Option Bool := none
  sessionIDPattern : Option String := none
  minRetryAttempt : Option Int := none
  sessionID : Option String := none
  port : Option Nat := none
  hostname : Option String := none
  pid : Option Nat := none
  cwd : Option String := none
  source : Option SensorSource := none
  status : Option String := none
  retryAttempt : Option Int := none
  retryMessage : Option String := none
  retryNext : Option Int := none

/-- JavaScript `String.prototype.includes`: substring containment. -/
def jsIncludes (s sub : String) : Bool :=
  decide (List.IsInfix sub.data s.data)

def matchesFilter (session : Session) (filter : SessionFilter) : Bool :=
  (match filter.busy with
   | some true => decide (session.status = some "busy")
   | _ => true) &&
  (match filter.idle with
   | some true => decide (session.status = some "idle")
   | _ => true) &&
  (match filter.retrying with
   | some true => decide (session.status = some "retry")
   | _ => true) &&
  (match filter.sessionIDPattern with
   | some pat => jsIncludes session.sessionID pat
   | none => true) &&
  (match filter.minRetryAttempt with
   | some m =>
     match session.retryAttempt with
     | some a => decide (m ≤ a)
     | none => true
   | none => true) &&
  (match filter.sessionID with
   | some v => decide (session.sessionID = v)
   | none => true) &&
  (match filter.port with
   | some v => decide (session.port = some v)
   | none => true) &&
  (match filter.hostname with
   | some v => decide (session.hostname = some v)
   | none => true) &&
  (match filter.pid with
   | some v => decide (session.pid = some v)
   | none => true) &&
  (match filter.cwd with
   | some v => decide (session.cwd = some v)
   | none => true) &&
  (match filter.source with
   | some v => decide (session.source = some v)
   | none => true) &&
  (match filter.status with
   | some v => decide (session.status = some v)
   | none => true) &&
  (match filter.retryAttempt with
   | some v => decide (session.retryAttempt = some v)
   | none => true) &&
  (match filter.retryMessage with
   | some v => decide (session.retryMessage = some v)
   | none => true) &&
  (match filter.retryNext with
   | some v => decide (session.retryNext = some v)
   | none => true)

inductive FilterArg where
  | pred (p : Session → Bool)
  | filt (f : SessionFilter)

def filterSessions (sessions : List Session) (filter : FilterArg) : List Session :=
  match filter with
  | .pred p => sessions.filter p
  | .filt f => sessions.filter (fun s => matchesFilter s f)

/-- Claim C10: with `minRetryAttempt` set, `filterSessions` never rejects a
session whose `retryAttempt` is undefined because of the minimum — the
minimum's whole effect is a final filter that excludes exactly the sessions
carrying a defined `retryAttempt` strictly below it; in particular, a
filter consisting only of a minimum keeps every session with undefined
`retryAttempt`. -/
theorem filterSessions_minRetryAttempt (sessions : List Session) (f : SessionFilter) (m : Int)
    (hm : f.minRetryAttempt = some m) :
    filterSessions sessions (FilterArg.filt f)
      = (filterSessions sessions (FilterArg.filt { f with minRetryAttempt := none })).filter
          (fun s => match s.retryAttempt with
            | none => true
            | some a => decide (m ≤ a))
  ∧ filterSessions sessions (FilterArg.filt { minRetryAttempt := some m })
      = sessions.filter (fun s => match s.retryAttempt with
          | none => true
          | some a => decide (m ≤ a)) := by
  have hmatch : ∀ s : Session, matchesFilter s f
      = (matchesFilter s { f with minRetryAttempt := none }
          && (match s.retryAttempt with
              | none => true
              | some a => decide (m ≤ a))) := by
    intro s
    rcases hra : s.retryAttempt with _ | a
    · simp [matchesFilter, hm, hra]
    · by_cases hle : m ≤ a
      · simp [matchesFilter, hm, hra, hle]
      · simp [matchesFilter, hm, hra, hle]
  constructor
  · show sessions.filter (fun s => matchesFilter s f) = _
    rw [filterSessions, List.filter_filter]
    apply List.filter_congr
    intro s _
    rw [hmatch s, Bool.and_comm]
  · apply List.filter_congr
    intro s _
    rcases hra : s.retryAttempt with _ | a <;> simp [matchesFilter, hra]

theorem filterSessions_minRetryAttempt_witness :
    (SessionFilter.minRetryAttempt { minRetryAttempt := some 2 } = some 2)
  ∧ (filterSessions [{ sessionID := "a" }, { sessionID := "b", retryAttempt := some 1 },
        { sessionID := "c", retryAttempt := some 5 }]
        (FilterArg.filt { minRetryAttempt := some 2 })
      = (filterSessions [{ sessionID := "a" }, { sessionID := "b", retryAttempt := some 1 },
          { sessionID := "c", retryAttempt := some 5 }]
          (FilterArg.filt { ({ minRetryAttempt := some 2 } : SessionFilter) with
            minRetryAttempt := none })).filter
          (fun s => match s.retryAttempt with
            | none => true
            | some a => decide ((2 : Int) ≤ a))
    ∧ filterSessions [{ sessionID := "a" }, { sessionID := "b", retryAttempt := some 1 },
        { sessionID := "c", retryAttempt := some 5 }]
        (FilterArg.filt { minRetryAttempt := some 2 })
      = [{ sessionID := "a" }, { sessionID := "b", retryAttempt := some 1 },
          { sessionID := "c", retryAttempt := some 5 }].filter
          (fun s => match s.retryAttempt with
            | none => true
            | some a => decide ((2 : Int) ≤ a))) :=
  ⟨rfl, filterSessions_minRetryAttempt _ _ 2 rfl⟩
